import Mathlib

/-!
Verification of the HTTP request-processing core described by the Boson
documentation corpus.  The repository under verification is a documentation
site; the framework implementation itself is not part of the repository, so
every definition below is a shallow embedding modelled from the
specification's data model and component contracts (spec.md sections 3-7),
faithful to its words.
-/

namespace Boson

/-- Modelled from the spec: a route-parameter constraint (spec section 4.2).
Built-in constraints are `int` (decimal digits, optional leading `-`),
`alpha` (letters only), `alnum` (letters+digits), `uuid` (hyphenated hex),
`datetime` (ISO-8601-like date pattern).  A custom constraint is registered
as a named regular expression before use; registration is modelled by
capturing the compiled matcher as a boolean predicate on strings. -/
inductive Constraint
  | cint
  | calpha
  | calnum
  | cuuid
  | cdatetime
  | custom (check : String → Bool)

/-- Split a character list on a separator character; pieces are accumulated
in reverse in the second argument. -/
def splitCharsOn (sep : Char) : List Char → List Char → List (List Char)
  | [], acc => [acc.reverse]
  | c :: cs, acc =>
      if c = sep then acc.reverse :: splitCharsOn sep cs []
      else splitCharsOn sep cs (c :: acc)

/-- Decimal digits with an optional leading minus sign. -/
def isIntStr (s : String) : Bool :=
  match s.toList with
  | [] => false
  | '-' :: rest => (!rest.isEmpty) && rest.all Char.isDigit
  | l => l.all Char.isDigit

/-- Hexadecimal digit characters, upper or lower case. -/
def isHexChar (c : Char) : Bool :=
  c.isDigit || (97 ≤ c.toNat && c.toNat ≤ 102) || (65 ≤ c.toNat && c.toNat ≤ 70)

/-- Fixed 8-4-4-4-12 hyphenated hexadecimal pattern. -/
def isUuidStr (s : String) : Bool :=
  match splitCharsOn '-' s.toList [] with
  | [a, b, c, d, e] =>
      a.length == 8 && b.length == 4 && c.length == 4 && d.length == 4 &&
      e.length == 12 && (a ++ b ++ c ++ d ++ e).all isHexChar
  | _ => false

/-- ISO-8601-like date pattern YYYY-MM-DD. -/
def isDatetimeStr (s : String) : Bool :=
  match splitCharsOn '-' s.toList [] with
  | [y, m, d] =>
      y.length == 4 && m.length == 2 && d.length == 2 &&
      (y ++ m ++ d).all Char.isDigit
  | _ => false

/-- Letters only, nonempty. -/
def isAlphaStr (s : String) : Bool :=
  match s.toList with
  | [] => false
  | l => l.all Char.isAlpha

/-- Letters and digits only, nonempty. -/
def isAlnumStr (s : String) : Bool :=
  match s.toList with
  | [] => false
  | l => l.all Char.isAlphanum

/-- Whether a path-segment string satisfies a constraint. -/
def constraintCheck : Constraint → String → Bool
  | Constraint.cint, s => isIntStr s
  | Constraint.calpha, s => isAlphaStr s
  | Constraint.calnum, s => isAlnumStr s
  | Constraint.cuuid, s => isUuidStr s
  | Constraint.cdatetime, s => isDatetimeStr s
  | Constraint.custom f, s => f s

/-- An unconstrained named segment accepts anything. -/
def constraintOk : Option Constraint → String → Bool
  | none, _ => true
  | some c, s => constraintCheck c s

/-- Modelled from the spec: one `/`-delimited unit of a route pattern
(spec section 3, `Segment`): literal text, a named (possibly constrained)
variable, an optional trailing segment, or a terminal wildcard. -/
inductive Segment
  | literal (text : String)
  | named (ident : String) (constraint : Option Constraint)
  | optional (inner : Segment)
  | wildcard (ident : String)

/-- Parameter bindings produced by matching, in binding order.  The matcher
always stores raw string values (spec section 4.2). -/
abbrev Params := List (String × String)

/-- Match one pattern segment against one path segment; literal segments
require exact equality, named segments bind after the constraint check, an
optional segment offered a path segment must match its inner segment. -/
def matchOne : Segment → String → Option Params
  | Segment.literal t, x => if t = x then some [] else none
  | Segment.named id c, x => if constraintOk c x then some [(id, x)] else none
  | Segment.optional inner, x => matchOne inner x
  | Segment.wildcard id, x => some [(id, x)]

/-- Join path segments back together with `/` separators. -/
def joinWith (sep : String) : List String → String
  | [] => ""
  | [x] => x
  | x :: xs => x ++ sep ++ joinWith sep xs

/-- Modelled from the spec: segment-by-segment comparison (spec section 4.2).
Segments are compared left-to-right; a wildcard consumes all remaining path
segments (including `/`) into a single string parameter; optional trailing
segments allow the pattern to match paths that omit them. -/
def matchSegs : List Segment → List String → Option Params
  | [], [] => some []
  | [], _ :: _ => none
  | Segment.wildcard id :: _, rest => some [(id, joinWith "/" rest)]
  | Segment.optional _ :: ss, [] => matchSegs ss []
  | Segment.literal _ :: _, [] => none
  | Segment.named _ _ :: _, [] => none
  | Segment.optional inner :: ss, x :: xs =>
      (matchOne (Segment.optional inner) x).bind
        (fun ps => (matchSegs ss xs).map (fun qs => ps ++ qs))
  | Segment.literal t :: ss, x :: xs =>
      if t = x then matchSegs ss xs else none
  | Segment.named id c :: ss, x :: xs =>
      if constraintOk c x then (matchSegs ss xs).map (fun qs => (id, x) :: qs)
      else none

/-- Split a request path on `/`, discarding empty segments (this also
realizes the documented trailing-slash normalization policy). -/
def splitPath (p : String) : List String :=
  ((splitCharsOn '/' p.toList []).filter (fun l => !l.isEmpty)).map
    (fun l => String.mk l)

/-- Modelled from the spec: a registered route (spec section 3): an HTTP
method, an immutable pattern, an opaque handler reference (an index into
the handler table), and route-local middleware. -/
structure Route where
  method : String
  pattern : List Segment
  handler : Nat
  localMW : List Nat

/-- Structural match of one route against a request: the method must agree
and the pattern must match the split path. -/
def matchRoute (method path : String) (r : Route) : Option Params :=
  if r.method = method then matchSegs r.pattern (splitPath path) else none

/-- Modelled from the spec: result of route resolution (spec section 3,
`MatchResult`): whether a route matched, the bound parameters, and a
reference to the matched route (the route value together with its
registration index). -/
structure MatchResult where
  matched : Bool
  params : Params
  route : Option Route
  routeIdx : Option Nat

/-- The not-found resolution outcome. -/
def noMatchResult : MatchResult := ⟨false, [], none, none⟩

/-- Shift the registration index of a resolution result by one, for results
coming from the tail of the route table. -/
def bumpIdx (mr : MatchResult) : MatchResult :=
  { mr with routeIdx := mr.routeIdx.map (fun i => i + 1) }

/-- Modelled from the spec: `resolve(method, path)` scans registered routes
in registration order and returns the first structural match; if no route
matches it returns `matched = false` without raising (spec section 4.1).
The function is total, so resolution can never raise. -/
def resolve (routes : List Route) (method path : String) : MatchResult :=
  match routes with
  | [] => noMatchResult
  | r :: rest =>
      match matchRoute method path r with
      | some ps => ⟨true, ps, some r, some 0⟩
      | none => bumpIdx (resolve rest method path)

/-- Modelled from the spec: the per-request context (spec section 3,
`RequestContext`): method, path, query entries, headers, params bound by
the matcher, and an `attributes` mapping used for inter-middleware
communication.  Opaque attribute values are modelled as strings. -/
structure Req where
  method : String
  path : String
  query : List (String × String)
  headers : List (String × String)
  params : Params
  attributes : List (String × String)
  deriving DecidableEq, Repr

/-- Modelled from the spec: a finalized response (spec section 3,
`ResponseBuilder` once finalized): status code, headers and body. -/
structure Resp where
  status : Nat
  headers : List (String × String)
  body : String
  deriving DecidableEq, Repr

/-- First-binding-wins association-list lookup. -/
def lookupStr (l : List (String × String)) (k : String) : Option String :=
  match l with
  | [] => none
  | (k', v) :: rest => if k' = k then some v else lookupStr rest k

/-- Modelled from the spec (design note on the context store): returns a new
request whose attributes map binds `k` to `v`; the argument request is a
plain immutable value, so it is untouched by construction and a chain that
continues with the original request observes no trace of the addition. -/
def Req.withAttribute (r : Req) (k v : String) : Req :=
  { r with attributes := (k, v) :: r.attributes }

/-- Attribute lookup on a request. -/
def Req.getAttribute (r : Req) (k : String) : Option String :=
  lookupStr r.attributes k

/-- One-argument query lookup: the raw entry, if present. -/
def Req.queryParam (r : Req) (name : String) : Option String :=
  lookupStr r.query name

/-- Modelled from the spec: two-argument query lookup `req.query(name,
default)` returns the entry's string value when present and the supplied
default otherwise; it is a total function, so it never raises. -/
def Req.queryParamD (r : Req) (name dflt : String) : String :=
  (r.queryParam name).getD dflt

/-- Errors raised by the typed parameter-access helper. -/
inductive ParamError
  | parameterTypeError (name : String)
  | missingParameter (name : String)
  deriving DecidableEq, Repr

/-- Numeric value of a digit list, most significant first. -/
def digitsToNat (l : List Char) : Nat :=
  l.foldl (fun a c => a * 10 + (c.toNat - 48)) 0

/-- Conversion of a bound string parameter to an integer; `none` when the
string is not a decimal integer. -/
def strToInt (s : String) : Option Int :=
  if isIntStr s then
    match s.toList with
    | '-' :: rest => some (-(digitsToNat rest : Int))
    | l => some ((digitsToNat l : Int))
  else none

/-- Modelled from the spec: the typed-access helper at the handler boundary
(spec section 4.2): it converts the stored string value and fails with
`ParameterTypeError` naming the parameter when conversion fails. -/
def getParamInt (ps : Params) (name : String) : Except ParamError Int :=
  match lookupStr ps name with
  | none => Except.error (ParamError.missingParameter name)
  | some v =>
      match strToInt v with
      | some n => Except.ok n
      | none => Except.error (ParamError.parameterTypeError name)

/-- A failure propagating through the chain: a message and the duck-typed
"has statusCode" capability (spec section 7). -/
structure Err where
  message : String
  statusCode : Option Nat
  deriving DecidableEq, Repr

/-- What one middleware's pre-processing step does with a request: continue
the chain with a (possibly modified) request by invoking `next`, or
short-circuit by returning a response without invoking `next`, or raise. -/
inductive PreResult
  | next (q : Req)
  | respond (r : Resp)
  | raised (e : Err)

/-- Modelled from the spec: a middleware (spec section 3): code before the
`next()` call (`pre`, which may short-circuit or raise) and code after the
`next()` call (`post`, transforming the response on the way out).  `next` is
invoked at most once by construction.  The `id` labels execution events. -/
structure Middleware where
  id : Nat
  pre : Req → PreResult
  post : Resp → Resp

/-- Outcome of the terminal handler: a finalized response, no finalized
response (the handler forgot to write one), or a raised failure. -/
inductive HOutcome
  | finalize (r : Resp)
  | noResponse
  | raised (e : Err)

/-- A terminal handler. -/
abbrev Handler := Req → HOutcome

/-- Observable execution events of one dispatch, for order-of-execution
properties: a middleware's pre-processing step, the terminal handler, a
middleware's post-processing step. -/
inductive Event
  | preStep (id : Nat)
  | handlerRun
  | postStep (id : Nat)
  deriving DecidableEq, Repr

/-- Modelled from the spec: execution of a middleware chain wrapped around a
terminal handler (spec section 4.3).  Pre-processing runs in chain order; a
middleware that responds without invoking `next` stops the walk; after the
inner part returns a response, the middleware's post-processing transforms
it on the way out (reverse order); a raised failure propagates without
running post-processing.  The event trace records what executed. -/
def runChain : List Middleware → Handler → Req → Except Err (Option Resp) × List Event
  | [], h, q =>
      match h q with
      | HOutcome.finalize r => (Except.ok (some r), [Event.handlerRun])
      | HOutcome.noResponse => (Except.ok none, [Event.handlerRun])
      | HOutcome.raised e => (Except.error e, [Event.handlerRun])
  | m :: ms, h, q =>
      match m.pre q with
      | PreResult.next q' =>
          let res := runChain ms h q'
          match res.1 with
          | Except.ok (some r) =>
              (Except.ok (some (m.post r)),
               Event.preStep m.id :: res.2 ++ [Event.postStep m.id])
          | Except.ok none =>
              (Except.ok none, Event.preStep m.id :: res.2 ++ [Event.postStep m.id])
          | Except.error e => (Except.error e, Event.preStep m.id :: res.2)
      | PreResult.respond r => (Except.ok (some r), [Event.preStep m.id])
      | PreResult.raised e => (Except.error e, [Event.preStep m.id])

/-- The request that the pre-processing walk of a chain delivers to the code
below it, when every middleware invokes `next`; `none` when some middleware
short-circuits or raises. -/
def preChain : List Middleware → Req → Option Req
  | [], q => some q
  | m :: ms, q =>
      match m.pre q with
      | PreResult.next q' => preChain ms q'
      | _ => none

/-- Apply the post-processing steps of a chain, innermost last, to a
response flowing back out. -/
def applyPosts (ms : List Middleware) (r : Resp) : Resp :=
  ms.foldr (fun w acc => w.post acc) r

/-- Pre-step events of a chain, in chain order. -/
def preEvents (ms : List Middleware) : List Event :=
  ms.map (fun w => Event.preStep w.id)

/-- Post-step events of a chain, in the listed order. -/
def postEvents (ms : List Middleware) : List Event :=
  ms.map (fun w => Event.postStep w.id)

/-- Modelled from the spec: the per-request state machine (spec section 4.5):
`Matching → {Matched, Unmatched}`; `Matched → ChainExecuting → {Completed,
Failed}`; `Failed → ErrorHandled → Completed`. -/
inductive DState
  | Matching
  | Matched
  | Unmatched
  | ChainExecuting
  | Completed
  | Failed
  | ErrorHandled
  deriving DecidableEq, Repr

/-- Severity levels of the injected logging collaborator. -/
inductive LogLevel
  | debug
  | info
  | warn
  | error
  deriving DecidableEq, Repr

/-- One call to the injected Logger collaborator. -/
structure LogEntry where
  level : LogLevel
  message : String
  deriving DecidableEq, Repr

/-- The status code the Error Boundary assigns to a failure: the duck-typed
status capability when present, otherwise server-class 500. -/
def statusOfErr (e : Err) : Nat :=
  e.statusCode.getD 500

/-- The generic message substituted for server-class error details in
production mode. -/
def genericMessage : String := "Internal Server Error"

/-- The documented machine-readable error shape \x7berror, status, path\x7d,
rendered as a JSON string. -/
def errBody (msg : String) (status : Nat) (path : String) : String :=
  "\x7b\"error\":\"" ++ msg ++ "\",\"status\":" ++ toString status ++
    ",\"path\":\"" ++ path ++ "\"\x7d"

/-- Modelled from the spec: the Error Boundary (spec sections 4.5 and 7):
classifies a failure via its status capability, produces a well-formed
response and never re-raises; in production mode the human-readable message
of a server-class (5xx) failure is replaced with the generic message. -/
def errorResponse (production : Bool) (path : String) (e : Err) : Resp :=
  let st := statusOfErr e
  let msg := if production && decide (500 ≤ st) then genericMessage else e.message
  { status := st
    headers := [("Content-Type", "application/json")]
    body := errBody msg st path }

/-- The failure substituted when the chain completes without any component
finalizing a response (spec section 4.4); it carries no status capability,
so it is classified server-class 500. -/
def emptyResponseError : Err :=
  { message := "EmptyResponseError: chain completed without a finalized response"
    statusCode := none }

/-- The 404-class response produced directly when no route matches. -/
def notFoundResp (path : String) : Resp :=
  { status := 404
    headers := [("Content-Type", "application/json")]
    body := errBody "Not Found" 404 path }

/-- Modelled from the spec: the application core consumed by the Dispatcher:
the registered route table, the global middleware in registration order, the
handler table resolving a route's opaque handler reference, and the
collaborator-provided production mode flag. -/
structure App where
  routes : List Route
  globalMW : List Middleware
  localMWTable : Nat → Middleware
  handlers : Nat → Handler
  production : Bool

/-- The route-local middleware of a route, resolved through the table, in
registration order. -/
def routeMW (app : App) (r : Route) : List Middleware :=
  r.localMW.map app.localMWTable

/-- The effective chain of one dispatch: global middleware in registration
order, then the matched route's local middleware in registration order; the
terminal handler is passed separately as the innermost element. -/
def effectiveChain (app : App) (r : Route) : List Middleware :=
  app.globalMW ++ routeMW app r

/-- Everything one dispatch produces: the single finalized response, the
state-machine trajectory, the calls made to the Logger collaborator, and
the chain-execution event trace. -/
structure DispatchResult where
  resp : Resp
  states : List DState
  logs : List LogEntry
  trace : List Event
  deriving Repr

/-- Modelled from the spec: `dispatch(request) → response` (spec section
4.4): resolve the route; if unresolved produce a 404-class response
directly (bypassing global middleware); otherwise run the effective chain.
A failure propagating out of the chain, or a chain that completes without a
finalized response (`EmptyResponseError`), is handed to the Error Boundary,
which finalizes a response and logs the original failure detail once; the
state machine always terminates in `Completed` with exactly one finalized
response. -/
def dispatch (app : App) (req : Req) : DispatchResult :=
  let mr := resolve app.routes req.method req.path
  match mr.route with
  | none =>
      { resp := notFoundResp req.path
        states := [DState.Matching, DState.Unmatched, DState.Completed]
        logs := []
        trace := [] }
  | some route =>
      let q := { req with params := mr.params }
      let res := runChain (effectiveChain app route) (app.handlers route.handler) q
      match res.1 with
      | Except.ok (some r) =>
          { resp := r
            states := [DState.Matching, DState.Matched, DState.ChainExecuting,
                       DState.Completed]
            logs := []
            trace := res.2 }
      | Except.ok none =>
          { resp := errorResponse app.production req.path emptyResponseError
            states := [DState.Matching, DState.Matched, DState.ChainExecuting,
                       DState.Failed, DState.ErrorHandled, DState.Completed]
            logs := [⟨LogLevel.error, emptyResponseError.message⟩]
            trace := res.2 }
      | Except.error e =>
          { resp := errorResponse app.production req.path e
            states := [DState.Matching, DState.Matched, DState.ChainExecuting,
                       DState.Failed, DState.ErrorHandled, DState.Completed]
            logs := [⟨LogLevel.error, e.message⟩]
            trace := res.2 }

/-- A pattern segment that consumes exactly one path segment and never
consumes more or fewer: a literal or a named segment. -/
def plainSeg : Segment → Bool
  | Segment.literal _ => true
  | Segment.named _ _ => true
  | _ => false

@[simp] theorem bumpIdx_matched (mr : MatchResult) :
    (bumpIdx mr).matched = mr.matched := rfl

@[simp] theorem bumpIdx_params (mr : MatchResult) :
    (bumpIdx mr).params = mr.params := rfl

@[simp] theorem bumpIdx_route (mr : MatchResult) :
    (bumpIdx mr).route = mr.route := rfl

@[simp] theorem bumpIdx_routeIdx (mr : MatchResult) :
    (bumpIdx mr).routeIdx = mr.routeIdx.map (fun i => i + 1) := rfl

theorem resolve_nil (m p : String) : resolve [] m p = noMatchResult := rfl

theorem resolve_cons_match (r : Route) (rest : List Route) (m p : String)
    (ps : Params) (h : matchRoute m p r = some ps) :
    resolve (r :: rest) m p = ⟨true, ps, some r, some 0⟩ := by
  simp [resolve, h]

theorem resolve_cons_nomatch (r : Route) (rest : List Route) (m p : String)
    (h : matchRoute m p r = none) :
    resolve (r :: rest) m p = bumpIdx (resolve rest m p) := by
  simp [resolve, h]

theorem resolve_matched_false_iff (rs : List Route) (m p : String) :
    (resolve rs m p).matched = false ↔ ∀ r ∈ rs, matchRoute m p r = none := by
  induction rs with
  | nil => simp [resolve, noMatchResult]
  | cons r rest ih =>
      cases h : matchRoute m p r with
      | some ps => simp [resolve_cons_match r rest m p ps h, h]
      | none =>
          rw [resolve_cons_nomatch r rest m p h]
          simp [h, ih]

theorem resolve_first_match (rs : List Route) (m p : String) (i : Nat)
    (h : (resolve rs m p).routeIdx = some i) :
    ∃ r, rs.get? i = some r ∧ (resolve rs m p).route = some r
      ∧ matchRoute m p r = some (resolve rs m p).params
      ∧ ∀ j, j < i → ∀ r', rs.get? j = some r' → matchRoute m p r' = none := by
  induction rs generalizing i with
  | nil => simp [resolve, noMatchResult] at h
  | cons r rest ih =>
      cases hm : matchRoute m p r with
      | some ps =>
          rw [resolve_cons_match r rest m p ps hm] at h ⊢
          have hi : i = 0 := by
            have := h
            simp at this
            omega
          subst hi
          exact ⟨r, rfl, rfl, hm, fun j hj _ _ => absurd hj (Nat.not_lt_zero j)⟩
      | none =>
          rw [resolve_cons_nomatch r rest m p hm] at h ⊢
          simp only [bumpIdx_routeIdx] at h
          obtain ⟨i', hi', hinc⟩ := Option.map_eq_some'.mp h
          subst hinc
          obtain ⟨r', hr', hroute, hparams, hmin⟩ := ih i' hi'
          refine ⟨r', by simpa using hr', by simpa using hroute,
            by simpa using hparams, ?_⟩
          intro j hj r'' hr''
          cases j with
          | zero =>
              have hrr : r = r'' := by simpa using hr''
              subst hrr
              exact hm
          | succ j' =>
              have hj' : j' < i' := by omega
              exact hmin j' hj' r'' (by simpa using hr'')

theorem matchRoute_congr (m p : String) (r r' : Route)
    (hm : r.method = r'.method) (hp : r.pattern = r'.pattern) :
    matchRoute m p r = matchRoute m p r' := by
  unfold matchRoute
  rw [hm, hp]

theorem resolve_earlier_duplicate_wins (rs : List Route) (m p : String)
    (i j : Nat) (ri rj : Route) (hij : i < j)
    (hi : rs.get? i = some ri) (hj : rs.get? j = some rj)
    (hmeth : ri.method = rj.method) (hpat : ri.pattern = rj.pattern) :
    (resolve rs m p).routeIdx ≠ some j := by
  intro h
  obtain ⟨r, hr, _, hmr, hmin⟩ := resolve_first_match rs m p j h
  rw [hj] at hr
  have hrj : r = rj := by
    injection hr with hh
    exact hh.symm
  subst hrj
  have hnone : matchRoute m p ri = none := hmin i hij ri hi
  rw [matchRoute_congr m p ri r hmeth hpat] at hnone
  rw [hnone] at hmr
  exact Option.noConfusion hmr

theorem matchSegs_constraint_fail (ss1 ss2 : List Segment) (id : String)
    (c : Constraint) (xs1 xs2 : List String) (x : String)
    (hlen : ss1.length = xs1.length)
    (hplain : ∀ s ∈ ss1, plainSeg s = true)
    (hc : constraintCheck c x = false) :
    matchSegs (ss1 ++ Segment.named id (some c) :: ss2) (xs1 ++ x :: xs2)
      = none := by
  induction ss1 generalizing xs1 with
  | nil =>
      cases xs1 with
      | nil => simp [matchSegs, constraintOk, hc]
      | cons y ys => simp at hlen
  | cons s ss ih =>
      cases xs1 with
      | nil => simp at hlen
      | cons x0 xs =>
          have hs := hplain s (by simp)
          have hlen' : ss.length = xs.length := by simpa using hlen
          have hplain' : ∀ t ∈ ss, plainSeg t = true := by
            intro t ht
            exact hplain t (by simp [ht])
          cases s with
          | literal t =>
              by_cases ht : t = x0
              · simp [matchSegs, ht, ih xs hlen' hplain']
              · simp [matchSegs, ht]
          | named id' c' =>
              by_cases hok : constraintOk c' x0 = true
              · simp [matchSegs, hok, ih xs hlen' hplain']
              · simp [matchSegs, hok]
          | optional inner => simp [plainSeg] at hs
          | wildcard w => simp [plainSeg] at hs

theorem resolve_skip (l1 l2 : List Route) (r : Route) (m p : String)
    (h : matchRoute m p r = none) :
    (resolve (l1 ++ r :: l2) m p).matched = (resolve (l1 ++ l2) m p).matched
    ∧ (resolve (l1 ++ r :: l2) m p).params = (resolve (l1 ++ l2) m p).params
    ∧ (resolve (l1 ++ r :: l2) m p).route = (resolve (l1 ++ l2) m p).route := by
  induction l1 with
  | nil =>
      simp only [List.nil_append]
      rw [resolve_cons_nomatch r l2 m p h]
      exact ⟨rfl, rfl, rfl⟩
  | cons a l ih =>
      cases ha : matchRoute m p a with
      | some ps =>
          simp only [List.cons_append]
          rw [resolve_cons_match a (l ++ r :: l2) m p ps ha,
            resolve_cons_match a (l ++ l2) m p ps ha]
          exact ⟨rfl, rfl, rfl⟩
      | none =>
          simp only [List.cons_append]
          rw [resolve_cons_nomatch a (l ++ r :: l2) m p ha,
            resolve_cons_nomatch a (l ++ l2) m p ha]
          simpa using ih

/-- The demonstration route `GET /users/\x7bid:int\x7d`. -/
def usersRoute : Route :=
  { method := "GET"
    pattern := [Segment.literal "users", Segment.named "id" (some Constraint.cint)]
    handler := 0
    localMW := [] }

/-- The demonstration route `GET /files/*path`. -/
def filesRoute : Route :=
  { method := "GET"
    pattern := [Segment.literal "files", Segment.wildcard "path"]
    handler := 0
    localMW := [] }

/-- A first registration of `GET /dup`. -/
def dupRouteA : Route :=
  { method := "GET", pattern := [Segment.literal "dup"], handler := 1, localMW := [] }

/-- A second registration of `GET /dup`, with a different handler. -/
def dupRouteB : Route :=
  { method := "GET", pattern := [Segment.literal "dup"], handler := 2, localMW := [] }

/-- Claim C1: `resolve(method, path)` scans the registered routes in
registration order and returns the first route that structurally matches
(the returned reference points at the least-index matching route, whose
bound parameters are returned, and no earlier route matches); when the
same (method, pattern) is registered twice the earlier registration always
wins (the result never references the later duplicate); and when no route
matches, resolve returns `matched = false` — it is a total function, so it
cannot raise. -/
theorem c1_resolve_first_match_and_duplicate_wins (rs : List Route) (m p : String) :
    ((resolve rs m p).matched = false ↔ ∀ r ∈ rs, matchRoute m p r = none)
    ∧ (∀ i, (resolve rs m p).routeIdx = some i →
        ∃ r, rs.get? i = some r ∧ (resolve rs m p).route = some r
          ∧ matchRoute m p r = some (resolve rs m p).params
          ∧ ∀ j, j < i → ∀ r', rs.get? j = some r' → matchRoute m p r' = none)
    ∧ (∀ i j ri rj, i < j → rs.get? i = some ri → rs.get? j = some rj →
        ri.method = rj.method → ri.pattern = rj.pattern →
        (resolve rs m p).routeIdx ≠ some j) :=
  ⟨resolve_matched_false_iff rs m p,
   fun i h => resolve_first_match rs m p i h,
   fun i j ri rj hij hi hj hmeth hpat =>
     resolve_earlier_duplicate_wins rs m p i j ri rj hij hi hj hmeth hpat⟩

/-- Witness for C1 at a concrete duplicate registration: the resolver never
returns the later duplicate of `GET /dup`, and in fact returns index 0. -/
theorem c1_witness :
    (resolve [dupRouteA, dupRouteB] "GET" "/dup").routeIdx ≠ some 1
    ∧ (resolve [dupRouteA, dupRouteB] "GET" "/dup").routeIdx = some 0 := by
  constructor
  · exact (c1_resolve_first_match_and_duplicate_wins [dupRouteA, dupRouteB]
      "GET" "/dup").2.2 0 1 dupRouteA dupRouteB (by decide) rfl rfl rfl rfl
  · rfl

/-- Claim C5: a route whose pattern has a constrained named segment is a
non-match for any path whose corresponding segment fails the constraint
(stated for the aligned occurrence: the preceding pattern segments are
one-to-one segments and line up with the preceding path segments), and
resolution simply continues past that route: resolving with the route
registered anywhere gives the same outcome (matched flag, params and
matched route) as resolving without it.  Resolution is a total function,
so a constraint failure can never raise or abort dispatch. -/
theorem c5_constraint_failure_is_non_match (m p : String) (r : Route)
    (l1 l2 : List Route) (ss1 ss2 : List Segment) (id : String)
    (c : Constraint) (xs1 xs2 : List String) (x : String)
    (hpat : r.pattern = ss1 ++ Segment.named id (some c) :: ss2)
    (hpath : splitPath p = xs1 ++ x :: xs2)
    (hlen : ss1.length = xs1.length)
    (hplain : ∀ s ∈ ss1, plainSeg s = true)
    (hc : constraintCheck c x = false) :
    matchRoute m p r = none
    ∧ (resolve (l1 ++ r :: l2) m p).matched = (resolve (l1 ++ l2) m p).matched
    ∧ (resolve (l1 ++ r :: l2) m p).params = (resolve (l1 ++ l2) m p).params
    ∧ (resolve (l1 ++ r :: l2) m p).route = (resolve (l1 ++ l2) m p).route := by
  have hnone : matchRoute m p r = none := by
    unfold matchRoute
    rw [hpat, hpath]
    by_cases hm : r.method = m
    · simp [hm, matchSegs_constraint_fail ss1 ss2 id c xs1 xs2 x hlen hplain hc]
    · simp [hm]
  exact ⟨hnone, resolve_skip l1 l2 r m p hnone⟩

/-- Witness for C5: `GET /users/abc` fails the `int` constraint of
`/users/\x7bid:int\x7d`, so the route is a non-match and resolution of the
one-route table falls through to the unmatched outcome. -/
theorem c5_witness :
    matchRoute "GET" "/users/abc" usersRoute = none
    ∧ (resolve ([] ++ usersRoute :: []) "GET" "/users/abc").matched
        = (resolve ([] ++ []) "GET" "/users/abc").matched
    ∧ (resolve ([] ++ usersRoute :: []) "GET" "/users/abc").params
        = (resolve ([] ++ []) "GET" "/users/abc").params
    ∧ (resolve ([] ++ usersRoute :: []) "GET" "/users/abc").route
        = (resolve ([] ++ []) "GET" "/users/abc").route :=
  c5_constraint_failure_is_non_match "GET" "/users/abc" usersRoute [] []
    [Segment.literal "users"] [] "id" Constraint.cint ["users"] [] "abc"
    rfl (by decide) rfl (by decide) (by decide)

/-- Claim C6: the matcher always stores string values — resolving
`/users/\x7bid:int\x7d` against `GET /users/42` yields `params` binding
`"id"` to the string `"42"`, while `GET /users/abc` is no match for the
route — and typed conversion happens only via the typed-access helper,
which fails with `ParameterTypeError` naming the parameter whenever
conversion of the bound string fails. -/
theorem c6_params_stored_as_strings_typed_access :
    (resolve [usersRoute] "GET" "/users/42").matched = true
    ∧ (resolve [usersRoute] "GET" "/users/42").params = [("id", "42")]
    ∧ matchRoute "GET" "/users/abc" usersRoute = none
    ∧ (∀ (ps : Params) (name v : String),
        lookupStr ps name = some v → strToInt v = none →
        getParamInt ps name = Except.error (ParamError.parameterTypeError name))
    ∧ getParamInt [("id", "42")] "id" = Except.ok 42 := by
  refine ⟨rfl, rfl, rfl, ?_, rfl⟩
  intro ps name v hv hconv
  simp [getParamInt, hv, hconv]

/-- Witness for C6: converting the bound string `"abc"` fails with
`ParameterTypeError` naming `"id"`. -/
theorem c6_witness :
    getParamInt [("id", "abc")] "id"
      = Except.error (ParamError.parameterTypeError "id") :=
  c6_params_stored_as_strings_typed_access.2.2.2.1 [("id", "abc")] "id" "abc"
    rfl rfl

theorem matchSegs_wildcard_tail (ss1 : List Segment) (id : String)
    (xs1 rest : List String) (ps : Params)
    (hplain : ∀ s ∈ ss1, plainSeg s = true)
    (h : matchSegs ss1 xs1 = some ps) :
    matchSegs (ss1 ++ [Segment.wildcard id]) (xs1 ++ rest)
      = some (ps ++ [(id, joinWith "/" rest)]) := by
  induction ss1 generalizing xs1 ps with
  | nil =>
      cases xs1 with
      | nil =>
          have hps : ps = [] := by
            have := h
            simp [matchSegs] at this
            exact this
          subst hps
          simp [matchSegs]
      | cons y ys => simp [matchSegs] at h
  | cons s ss ih =>
      have hs := hplain s (by simp)
      have hplain' : ∀ t ∈ ss, plainSeg t = true := by
        intro t ht
        exact hplain t (by simp [ht])
      cases s with
      | literal t =>
          cases xs1 with
          | nil => simp [matchSegs] at h
          | cons x0 xs =>
              by_cases ht : t = x0
              · rw [show Segment.literal t :: ss ++ [Segment.wildcard id]
                    = Segment.literal t :: (ss ++ [Segment.wildcard id]) from rfl]
                have h' : matchSegs ss xs = some ps := by
                  simpa [matchSegs, ht] using h
                simpa [matchSegs, ht] using ih xs ps hplain' h'
              · simp [matchSegs, ht] at h
      | named id' c' =>
          cases xs1 with
          | nil => simp [matchSegs] at h
          | cons x0 xs =>
              by_cases hok : constraintOk c' x0 = true
              · obtain ⟨qs, hqs, hps⟩ :
                    ∃ qs, matchSegs ss xs = some qs ∧ (id', x0) :: qs = ps := by
                  simpa [matchSegs, hok] using h
                subst hps
                simpa [matchSegs, hok] using ih xs qs hplain' hqs
              · simp [matchSegs, hok] at h
      | optional inner => simp [plainSeg] at hs
      | wildcard w => simp [plainSeg] at hs

/-- Claim C7: in a pattern ending with a wildcard, once matching reaches the
wildcard (the preceding segments are one-to-one segments that fully match
the preceding path segments), the wildcard consumes all remaining path
segments, rejoined with their `/` separators, into a single string
parameter under the wildcard's identifier; in particular `/files/*path`
matched against `/files/a/b/c.txt` binds `path` to `"a/b/c.txt"`. -/
theorem c7_wildcard_consumes_remaining :
    (∀ (ss1 : List Segment) (id : String) (xs1 rest : List String) (ps : Params),
      (∀ s ∈ ss1, plainSeg s = true) →
      matchSegs ss1 xs1 = some ps →
      matchSegs (ss1 ++ [Segment.wildcard id]) (xs1 ++ rest)
        = some (ps ++ [(id, joinWith "/" rest)]))
    ∧ (resolve [filesRoute] "GET" "/files/a/b/c.txt").matched = true
    ∧ (resolve [filesRoute] "GET" "/files/a/b/c.txt").params
        = [("path", "a/b/c.txt")] :=
  ⟨fun ss1 id xs1 rest ps hplain h =>
      matchSegs_wildcard_tail ss1 id xs1 rest ps hplain h,
   rfl, rfl⟩

/-- Witness for C7: the general wildcard law applied to the concrete
pattern `/files/*path` and path `/files/a/b/c.txt`. -/
theorem c7_witness :
    matchSegs ([Segment.literal "files"] ++ [Segment.wildcard "path"])
        (["files"] ++ ["a", "b", "c.txt"])
      = some ([] ++ [("path", joinWith "/" ["a", "b", "c.txt"])]) :=
  c7_wildcard_consumes_remaining.1 [Segment.literal "files"] "path" ["files"]
    ["a", "b", "c.txt"] [] (by decide) rfl

/-- Claim C9: `withAttribute` is a functional update: it returns a new
request whose attributes map is the original's with the key bound to the
value, every other field unchanged, and lookups of other keys unchanged.
The argument request is an immutable value in this embedding, so the
original is untouched by construction and a chain continued with it
observes no trace of the addition. -/
theorem c9_withAttribute_functional_update (r : Req) (k v : String) :
    (r.withAttribute k v).method = r.method
    ∧ (r.withAttribute k v).path = r.path
    ∧ (r.withAttribute k v).query = r.query
    ∧ (r.withAttribute k v).headers = r.headers
    ∧ (r.withAttribute k v).params = r.params
    ∧ (r.withAttribute k v).attributes = (k, v) :: r.attributes
    ∧ (r.withAttribute k v).getAttribute k = some v
    ∧ ∀ k', k' ≠ k →
        (r.withAttribute k v).getAttribute k' = r.getAttribute k' := by
  refine ⟨rfl, rfl, rfl, rfl, rfl, rfl, ?_, ?_⟩
  · simp [Req.getAttribute, Req.withAttribute, lookupStr]
  · intro k' hk'
    simp only [Req.getAttribute, Req.withAttribute, lookupStr]
    rw [if_neg (fun h => hk' h.symm)]

/-- A concrete request used by several witnesses. -/
def demoReq : Req :=
  { method := "GET", path := "/x", query := [("q", "boson")]
    headers := [], params := [], attributes := [("a", "1")] }

/-- Witness for C9 at a concrete request: the added attribute is visible,
and the unrelated attribute is untouched. -/
theorem c9_witness :
    (demoReq.withAttribute "user" "42").getAttribute "user" = some "42"
    ∧ (demoReq.withAttribute "user" "42").getAttribute "a"
        = demoReq.getAttribute "a" :=
  ⟨(c9_withAttribute_functional_update demoReq "user" "42").2.2.2.2.2.2.1,
   (c9_withAttribute_functional_update demoReq "user" "42").2.2.2.2.2.2.2
     "a" (by decide)⟩

/-- Claim C10: the two-argument query lookup returns the entry's string
value when the request's query contains an entry for the name, and the
supplied default when it does not; it is a total function, so it never
raises for an absent name. -/
theorem c10_query_default_lookup (r : Req) (name dflt : String) :
    (∀ v, r.queryParam name = some v → r.queryParamD name dflt = v)
    ∧ (r.queryParam name = none → r.queryParamD name dflt = dflt) := by
  constructor
  · intro v hv
    simp [Req.queryParamD, hv]
  · intro h
    simp [Req.queryParamD, h]

/-- Witness for C10: a present name returns its value, an absent name
returns the default. -/
theorem c10_witness :
    demoReq.queryParamD "q" "1" = "boson"
    ∧ demoReq.queryParamD "page" "1" = "1" :=
  ⟨(c10_query_default_lookup demoReq "q" "1").1 "boson" rfl,
   (c10_query_default_lookup demoReq "page" "1").2 rfl⟩

theorem runChain_reaches_handler (ms : List Middleware) (h : Handler)
    (q q' : Req) (r : Resp)
    (hpre : preChain ms q = some q') (hh : h q' = HOutcome.finalize r) :
    runChain ms h q
      = (Except.ok (some (applyPosts ms r)),
         preEvents ms ++ Event.handlerRun :: postEvents ms.reverse) := by
  induction ms generalizing q with
  | nil =>
      have hq : q = q' := by simpa [preChain] using hpre
      subst hq
      simp [runChain, hh, applyPosts, preEvents, postEvents]
  | cons m ms ih =>
      cases hm : m.pre q with
      | next q0 =>
          have hpre' : preChain ms q0 = some q' := by
            simpa [preChain, hm] using hpre
          have hrec := ih q0 hpre'
          simp [runChain, hm, hrec, applyPosts, preEvents, postEvents]
      | respond r0 => simp [preChain, hm] at hpre
      | raised e => simp [preChain, hm] at hpre

theorem runChain_short_circuit (l1 : List Middleware) (m : Middleware)
    (l2 : List Middleware) (h : Handler) (q q' : Req) (r : Resp)
    (hpre : preChain l1 q = some q') (hm : m.pre q' = PreResult.respond r) :
    runChain (l1 ++ m :: l2) h q
      = (Except.ok (some (applyPosts l1 r)),
         preEvents l1 ++ Event.preStep m.id :: postEvents l1.reverse) := by
  induction l1 generalizing q with
  | nil =>
      have hq : q = q' := by simpa [preChain] using hpre
      subst hq
      simp [runChain, hm, applyPosts, preEvents, postEvents]
  | cons a ms ih =>
      cases ha : a.pre q with
      | next q0 =>
          have hpre' : preChain ms q0 = some q' := by
            simpa [preChain, ha] using hpre
          have hrec := ih q0 hpre'
          simp [runChain, ha, hrec, applyPosts, preEvents, postEvents]
      | respond r0 => simp [preChain, ha] at hpre
      | raised e => simp [preChain, ha] at hpre

theorem applyPosts_id (ms : List Middleware) (r : Resp)
    (hid : ∀ w ∈ ms, ∀ s, w.post s = s) : applyPosts ms r = r := by
  induction ms with
  | nil => rfl
  | cons a rest ih =>
      have ha := hid a (by simp)
      have hrest : ∀ w ∈ rest, ∀ s, w.post s = s := by
        intro w hw s
        exact hid w (by simp [hw]) s
      simp only [applyPosts, List.foldr_cons]
      have : List.foldr (fun w acc => w.post acc) r rest = r := by
        simpa [applyPosts] using ih hrest
      rw [this, ha]

/-- Claim C2 (amended): when the pre-processing walk reaches a middleware
that returns a response without invoking `next`, neither any downstream
middleware nor the terminal handler executes (the event trace consists
exactly of the upstream pre-steps, this middleware's pre-step and the
upstream post-steps, and contains no handler event), and the response that
middleware produced is the value from which the response phase continues:
the final chain result is that response transformed by the post-processing
of the middleware outside it (equal to it whenever they leave the response
unchanged). -/
theorem c2_short_circuit_amended (l1 : List Middleware) (m : Middleware)
    (l2 : List Middleware) (h : Handler) (q q' : Req) (r : Resp)
    (hpre : preChain l1 q = some q') (hm : m.pre q' = PreResult.respond r) :
    (runChain (l1 ++ m :: l2) h q).1 = Except.ok (some (applyPosts l1 r))
    ∧ (runChain (l1 ++ m :: l2) h q).2
        = preEvents l1 ++ Event.preStep m.id :: postEvents l1.reverse
    ∧ Event.handlerRun ∉ (runChain (l1 ++ m :: l2) h q).2
    ∧ ((∀ w ∈ l1, ∀ s, w.post s = s) →
        (runChain (l1 ++ m :: l2) h q).1 = Except.ok (some r)) := by
  have key := runChain_short_circuit l1 m l2 h q q' r hpre hm
  refine ⟨by rw [key], by rw [key], ?_, ?_⟩
  · rw [key]
    simp [preEvents, postEvents]
  · intro hid
    rw [key, applyPosts_id l1 r hid]

/-- A pass-through middleware whose post-processing rewrites the status
code to 999. -/
def mwStatus999 : Middleware :=
  { id := 0, pre := fun q => PreResult.next q
    post := fun r => { r with status := 999 } }

/-- The 401 response produced by the terminating auth middleware. -/
def resp401 : Resp := { status := 401, headers := [], body := "unauthorized" }

/-- A terminating middleware: it returns 401 without invoking `next`. -/
def mwAuth401 : Middleware :=
  { id := 1, pre := fun _ => PreResult.respond resp401, post := fun r => r }

/-- A pass-through middleware that touches nothing. -/
def mwPass (n : Nat) : Middleware :=
  { id := n, pre := fun q => PreResult.next q, post := fun r => r }

/-- A handler that finalizes a 200 response. -/
def okHandler : Handler :=
  fun _ => HOutcome.finalize { status := 200, headers := [], body := "ok" }

/-- The demonstration route `GET /x` with one local middleware reference. -/
def xRoute : Route :=
  { method := "GET", pattern := [Segment.literal "x"], handler := 0
    localMW := [0] }

/-- A concrete application whose global chain is the post-rewriting
middleware followed by the terminating auth middleware. -/
def shortCircuitApp : App :=
  { routes := [{ method := "GET", pattern := [Segment.literal "x"]
                 handler := 0, localMW := [] }]
    globalMW := [mwStatus999, mwAuth401]
    localMWTable := fun _ => mwPass 99
    handlers := fun _ => okHandler
    production := false }

/-- Counterexample to C2 as stated: in the dispatch of `GET /x` through
the chain [mwStatus999, mwAuth401], the middleware mwAuth401 returns
`resp401` without invoking `next`, yet the final response of the dispatch
is the 999-status response produced by the upstream middleware's
post-processing, not `resp401`. -/
theorem c2_counterexample :
    mwAuth401.pre demoReq = PreResult.respond resp401
    ∧ (dispatch shortCircuitApp demoReq).resp
        = { status := 999, headers := [], body := "unauthorized" }
    ∧ (dispatch shortCircuitApp demoReq).resp ≠ resp401 := by
  refine ⟨rfl, rfl, ?_⟩
  intro h
  have : (999 : Nat) = 401 := congrArg Resp.status h
  omega

/-- Witness for the amended C2 at a concrete chain: the upstream
pass-through middleware ran its pre-step, the terminating middleware
short-circuited, the handler never ran, and with identity upstream
post-processing the produced response is the final one. -/
theorem c2_witness :
    (runChain ([mwPass 7] ++ mwAuth401 :: [mwPass 8]) okHandler demoReq).1
      = Except.ok (some (applyPosts [mwPass 7] resp401))
    ∧ (runChain ([mwPass 7] ++ mwAuth401 :: [mwPass 8]) okHandler demoReq).2
        = preEvents [mwPass 7]
          ++ Event.preStep mwAuth401.id :: postEvents [mwPass 7].reverse
    ∧ Event.handlerRun
        ∉ (runChain ([mwPass 7] ++ mwAuth401 :: [mwPass 8]) okHandler demoReq).2
    ∧ ((∀ w ∈ [mwPass 7], ∀ s, w.post s = s) →
        (runChain ([mwPass 7] ++ mwAuth401 :: [mwPass 8]) okHandler demoReq).1
          = Except.ok (some resp401)) :=
  c2_short_circuit_amended [mwPass 7] mwAuth401 [mwPass 8] okHandler demoReq
    demoReq resp401 rfl rfl

/-- Claim C3: the effective chain of a dispatch is the global middleware in
registration order, followed by the matched route's local middleware in
registration order, with the terminal handler innermost; when no middleware
short-circuits and the handler finalizes a response, the event trace shows
every pre-processing step in exactly that chain order, then the handler,
then every post-processing step in exactly the reverse order, and the final
response is the handler's response transformed by the post-steps from
innermost to outermost. -/
theorem c3_chain_order_onion (app : App) (req : Req) (route : Route)
    (q' : Req) (r : Resp)
    (hroute : (resolve app.routes req.method req.path).route = some route)
    (hpre : preChain (effectiveChain app route)
        { req with params := (resolve app.routes req.method req.path).params }
        = some q')
    (hh : app.handlers route.handler q' = HOutcome.finalize r) :
    effectiveChain app route = app.globalMW ++ routeMW app route
    ∧ (dispatch app req).trace
        = preEvents (app.globalMW ++ routeMW app route)
          ++ Event.handlerRun
            :: postEvents (app.globalMW ++ routeMW app route).reverse
    ∧ (dispatch app req).resp
        = applyPosts (app.globalMW ++ routeMW app route) r := by
  have key := runChain_reaches_handler (effectiveChain app route)
    (app.handlers route.handler)
    { req with params := (resolve app.routes req.method req.path).params }
    q' r hpre hh
  have hchain : effectiveChain app route = app.globalMW ++ routeMW app route := rfl
  rw [hchain] at key
  refine ⟨hchain, ?_, ?_⟩ <;>
    simp [dispatch, hroute, effectiveChain, key]

/-- A concrete application with one global and one route-local pass-through
middleware, used to witness the onion ordering. -/
def onionApp : App :=
  { routes := [xRoute]
    globalMW := [mwPass 10]
    localMWTable := fun _ => mwPass 20
    handlers := fun _ => okHandler
    production := false }

/-- Witness for C3: dispatching `GET /x` through one global and one local
pass-through middleware produces the trace pre 10, pre 20, handler,
post 20, post 10. -/
theorem c3_witness :
    effectiveChain onionApp xRoute = onionApp.globalMW ++ routeMW onionApp xRoute
    ∧ (dispatch onionApp demoReq).trace
        = preEvents (onionApp.globalMW ++ routeMW onionApp xRoute)
          ++ Event.handlerRun
            :: postEvents (onionApp.globalMW ++ routeMW onionApp xRoute).reverse
    ∧ (dispatch onionApp demoReq).resp
        = applyPosts (onionApp.globalMW ++ routeMW onionApp xRoute)
            { status := 200, headers := [], body := "ok" } :=
  c3_chain_order_onion onionApp demoReq xRoute
    { demoReq with
        params := (resolve onionApp.routes demoReq.method demoReq.path).params }
    { status := 200, headers := [], body := "ok" } rfl rfl rfl

/-- Claim C4: every dispatch finalizes exactly one response (the state
`Completed`, which marks response finalization, occurs exactly once in the
trajectory) and the per-request state machine always terminates in
`Completed`; moreover, if the chain completes without any component
finalizing a response, the Dispatcher substitutes the
`EmptyResponseError`-derived 500 response instead of returning nothing. -/
theorem c4_dispatch_always_completes_exactly_once (app : App) (req : Req) :
    (dispatch app req).states.getLast? = some DState.Completed
    ∧ (dispatch app req).states.count DState.Completed = 1
    ∧ (∀ route, (resolve app.routes req.method req.path).route = some route →
        (runChain (effectiveChain app route) (app.handlers route.handler)
          { req with
              params := (resolve app.routes req.method req.path).params }).1
          = Except.ok none →
        (dispatch app req).resp
          = errorResponse app.production req.path emptyResponseError
        ∧ (dispatch app req).resp.status = 500) := by
  cases hr : (resolve app.routes req.method req.path).route with
  | none =>
      refine ⟨?_, ?_, ?_⟩
      · simp [dispatch, hr]
      · simp [dispatch, hr]
      · intro route hroute
        exact absurd hroute (by simp)
  | some route =>
      cases hc : (runChain (effectiveChain app route) (app.handlers route.handler)
          { req with
              params := (resolve app.routes req.method req.path).params }).1 with
      | error e =>
          refine ⟨?_, ?_, ?_⟩
          · simp [dispatch, hr, hc]
          · simp [dispatch, hr, hc]
          · intro route' hroute' hnone
            have : route' = route := by
              injection hroute' with hh
              exact hh.symm
            subst this
            rw [hc] at hnone
            exact absurd hnone (by simp)
      | ok o =>
          cases o with
          | some r =>
              refine ⟨?_, ?_, ?_⟩
              · simp [dispatch, hr, hc]
              · simp [dispatch, hr, hc]
              · intro route' hroute' hnone
                have : route' = route := by
                  injection hroute' with hh
                  exact hh.symm
                subst this
                rw [hc] at hnone
                exact absurd hnone (by simp)
          | none =>
              refine ⟨?_, ?_, ?_⟩
              · simp [dispatch, hr, hc]
              · simp [dispatch, hr, hc]
              · intro route' hroute' hnone
                exact ⟨by simp [dispatch, hr, hc], by simp [dispatch, hr, hc]; rfl⟩

/-- A route whose handler forgets to finalize a response. -/
def noRespRoute : Route :=
  { method := "GET", pattern := [Segment.literal "x"], handler := 0
    localMW := [] }

/-- A concrete application whose handler completes without finalizing. -/
def noRespApp : App :=
  { routes := [noRespRoute]
    globalMW := []
    localMWTable := fun _ => mwPass 99
    handlers := fun _ => fun _ => HOutcome.noResponse
    production := false }

/-- Witness for C4: a handler that never writes a response still yields a
terminal `Completed` state and the `EmptyResponseError`-derived 500. -/
theorem c4_witness :
    (dispatch noRespApp demoReq).states.getLast? = some DState.Completed
    ∧ (dispatch noRespApp demoReq).resp
        = errorResponse noRespApp.production demoReq.path emptyResponseError
    ∧ (dispatch noRespApp demoReq).resp.status = 500 := by
  have h := c4_dispatch_always_completes_exactly_once noRespApp demoReq
  have h3 := h.2.2 noRespRoute rfl rfl
  exact ⟨h.1, h3.1, h3.2⟩

/-- Claim C8: with the production flag set, the finalized response for any
server-class (5xx) failure carries a body built only from the generic
message, the status class and the path — it is the same for any two
failures of the same status, so the original human-readable message cannot
appear in (or influence) it — while the Logger collaborator receives
exactly one log call carrying the original failure detail. -/
theorem c8_production_hides_server_error_details (app : App) (req : Req)
    (route : Route) (e : Err)
    (hprod : app.production = true)
    (hroute : (resolve app.routes req.method req.path).route = some route)
    (hrun : (runChain (effectiveChain app route) (app.handlers route.handler)
        { req with
            params := (resolve app.routes req.method req.path).params }).1
        = Except.error e)
    (hclass : 500 ≤ statusOfErr e) :
    (dispatch app req).resp.body
      = errBody genericMessage (statusOfErr e) req.path
    ∧ (dispatch app req).logs = [⟨LogLevel.error, e.message⟩]
    ∧ (∀ e', statusOfErr e' = statusOfErr e →
        (errorResponse app.production req.path e').body
          = (dispatch app req).resp.body) := by
  have hresp : (dispatch app req).resp = errorResponse app.production req.path e := by
    simp [dispatch, hroute, hrun]
  have hlogs : (dispatch app req).logs = [⟨LogLevel.error, e.message⟩] := by
    simp [dispatch, hroute, hrun]
  have hbody : ∀ e'', statusOfErr e'' = statusOfErr e →
      (errorResponse app.production req.path e'').body
        = errBody genericMessage (statusOfErr e) req.path := by
    intro e'' he''
    simp [errorResponse, hprod, he'', hclass]
  refine ⟨?_, hlogs, ?_⟩
  · rw [hresp]
    exact hbody e rfl
  · intro e' he'
    rw [hresp, hbody e' he', hbody e rfl]

/-- A failure with a human-readable detail and no status capability. -/
def boomErr : Err := { message := "boom: secret detail", statusCode := none }

/-- A production-mode application whose handler raises `boomErr`. -/
def prodApp : App :=
  { routes := [noRespRoute]
    globalMW := []
    localMWTable := fun _ => mwPass 99
    handlers := fun _ => fun _ => HOutcome.raised boomErr
    production := true }

/-- Witness for C8: the concrete production dispatch answers with the
generic body and logs the original detail exactly once. -/
theorem c8_witness :
    (dispatch prodApp demoReq).resp.body
      = errBody genericMessage (statusOfErr boomErr) demoReq.path
    ∧ (dispatch prodApp demoReq).logs
        = [⟨LogLevel.error, boomErr.message⟩] := by
  have h := c8_production_hides_server_error_details prodApp demoReq
    noRespRoute boomErr rfl rfl rfl (by decide)
  exact ⟨h.1, h.2.1⟩

end Boson
